import Mathlib

/-!
Verification of the Bank → Tally mapper (`mapper_app.py`) against its
natural-language specification.  The classifier pipeline of `main` is
embedded shallowly: per-row processing is pure, so each pipeline stage
becomes a Lean function.  Amounts are modelled as rationals (the script
works on pandas floats whose NaNs are already coerced to 0 upstream,
line 61-62), and Python string operations `.strip()` / `.upper()` are
modelled character-list-wise for their ASCII behaviour.
-/

/-- ASCII uppercase of one character, modelling Python `str.upper` on the
ASCII range (the only range exercised by the script's narration keys). -/
def upChar (c : Char) : Char :=
  if 'a' ≤ c ∧ c ≤ 'z' then Char.ofNat (c.toNat - 32) else c

/-- Whitespace test of Python `str.strip` (ASCII whitespace class:
space, tab, newline, carriage return, vertical tab, form feed). -/
def wsChar (c : Char) : Bool :=
  c.toNat = 32 || c.toNat = 9 || c.toNat = 10 || c.toNat = 13 ||
  c.toNat = 11 || c.toNat = 12

/-- Python `s.upper()`. -/
def upperStr (s : String) : String := ⟨s.data.map upChar⟩

/-- Python `s.strip()` at the character-list level. -/
def trimChars (l : List Char) : List Char :=
  ((l.dropWhile wsChar).reverse.dropWhile wsChar).reverse

/-- Python `s.strip()`. -/
def trimStr (s : String) : String := ⟨trimChars s.data⟩

/-- Input transaction row, the canonical four-column shape of the bank
statement after the numeric coercion of lines 61-62. -/
structure Txn where
  date : String
  narration : String
  debit : ℚ
  credit : ℚ
deriving DecidableEq, Repr

/-- A parsed calendar date, the result type of the (external) tolerant
date parser `pd.to_datetime` that `to_date_str` (lines 9-17) wraps. -/
structure CalDate where
  day : Nat
  month : Nat
  year : Nat
deriving DecidableEq, Repr

/-- Validity bounds checked by the `strptime` round-trip of lines 187-193;
dates produced by the upstream parser always satisfy them. -/
def okDate (d : CalDate) : Bool :=
  decide (1 ≤ d.day) && decide (d.day ≤ 31) &&
  decide (1 ≤ d.month) && decide (d.month ≤ 12)

/-- Zero-padded two-digit rendering, as `strftime` field `%d` / `%m`. -/
def pad2 (n : Nat) : String := if n < 10 then "0" ++ toString n else toString n

/-- Zero-padded four-digit rendering, as `strftime` field `%Y`. -/
def pad4 (n : Nat) : String :=
  if n < 10 then "000" ++ toString n
  else if n < 100 then "00" ++ toString n
  else if n < 1000 then "0" ++ toString n
  else toString n

/-- Lines 9-17 `to_date_str`: normalize a raw date cell to `dd-mm-YYYY`.
The tolerant parser itself (`pd.to_datetime`, an external library) is a
parameter `parse`; a `none` result models both coercion failure (`NaT`)
and a raised exception, and yields the empty string. -/
def to_date_str (parse : String → Option CalDate) (val : String) : String :=
  match parse val with
  | none => ""
  | some d => pad2 d.day ++ "-" ++ pad2 d.month ++ "-" ++ pad4 d.year

/-- Lines 186-193: `DAY` is obtained by re-parsing the just-formatted
`dd-mm-YYYY` string with `strptime` and printing `%d`; on an empty or
invalid date string the `except` arm leaves it empty.  For a valid date
this round-trip returns exactly the zero-padded day. -/
def dayVal (parse : String → Option CalDate) (val : String) : String :=
  match parse val with
  | none => ""
  | some d => if okDate d then pad2 d.day else ""

/-- Voucher classification result (lines 146-153). -/
inductive VoucherType where
  | PAYMENT
  | RECEIPT
deriving DecidableEq, Repr

/-- Lines 146-153: voucher type from the two amount columns. -/
def voucherType (debit credit : ℚ) : VoucherType :=
  if debit > 0 ∧ credit = 0 then .PAYMENT
  else if credit > 0 ∧ debit = 0 then .RECEIPT
  else if debit ≥ credit then .PAYMENT else .RECEIPT

/-- Follows the spec's words (section 4.1, voucher-side classification):
`debit > 0 and credit == 0` → PAYMENT; `credit > 0 and debit == 0` →
RECEIPT; otherwise (both zero, or both positive) PAYMENT if
`debit >= credit` else RECEIPT. -/
def voucherTypeSpec (debit credit : ℚ) : VoucherType :=
  if debit > 0 ∧ credit = 0 then .PAYMENT
  else if credit > 0 ∧ debit = 0 then .RECEIPT
  else if debit ≥ credit then .PAYMENT else .RECEIPT

/-- Lines 111-114, step 1: apply the manual repeated-narration
replacements.  The dict iteration applies each entry's mask in order,
later matching entries overwriting earlier ones; a row matches an entry
when its uppercased narration equals the entry's key. -/
def step1 (ov : List (String × String)) (narr : String) : String :=
  ov.foldl (fun acc kv => if upperStr narr = kv.1 then kv.2 else acc) ""

/-- Lines 116-118, step 2: debit at most 58 forces `BANK CHARGES`,
overwriting whatever step 1 set. -/
def step2 (debit : ℚ) (mapped : String) : String :=
  if debit ≤ 58 then "BANK CHARGES" else mapped

/-- One iteration of `process.extractOne`'s best-candidate scan: a later
candidate replaces the incumbent only on a strictly greater score, so the
first of the top-scoring candidates wins. -/
def extractStep (scorer : String → String → ℚ) (text : String)
    (best : Option (String × ℚ)) (name : String) : Option (String × ℚ) :=
  match best with
  | none => some (name, scorer text name)
  | some (bn, bs) =>
      if bs < scorer text name then some (name, scorer text name) else some (bn, bs)

/-- Line 130 `process.extractOne(text, ledger_list, scorer=...)`: best
candidate of `choices` under `scorer`, `none` when `choices` is empty.
The scorer (`fuzz.token_set_ratio`, an external library) is a parameter. -/
def extractOne (scorer : String → String → ℚ) (text : String)
    (choices : List String) : Option (String × ℚ) :=
  choices.foldl (extractStep scorer text) none

/-- Lines 120-134, step 3: fuzzy matching.  It runs only when a ledger
master was loaded, only for rows whose mapped ledger is still empty,
skips blank narrations (line 128-129), and assigns the best candidate
only when its score reaches the threshold (line 133). -/
def step3 (scorer : String → String → ℚ) (ledgers : List String) (thresh : ℚ)
    (narr mapped : String) : String :=
  if ledgers = [] then mapped
  else if mapped ≠ "" then mapped
  else if trimStr narr = "" then mapped
  else
    match extractOne scorer narr ledgers with
    | none => mapped
    | some (name, score) => if thresh ≤ score then name else mapped

/-- The `MAPPED_LEDGER` column of one row after the three resolution
steps of lines 111-134. -/
def mappedLedger (ov : List (String × String)) (ledgers : List String)
    (scorer : String → String → ℚ) (thresh : ℚ)
    (narr : String) (debit : ℚ) : String :=
  step3 scorer ledgers thresh narr (step2 debit (step1 ov narr))

/-- Lines 158-181: the `BY / DR` column for one row. -/
def by_dr_of (vt : VoucherType) (mapped bank : String) : String :=
  match vt with
  | .RECEIPT => if trimStr bank ≠ "" then trimStr bank else ""
  | .PAYMENT => if mapped ≠ "" then mapped else "SUSPENSE"

/-- Lines 158-181: the `TO / CR` column for one row. -/
def to_cr_of (vt : VoucherType) (mapped bank : String) : String :=
  match vt with
  | .RECEIPT => if mapped ≠ "" then mapped else "SUSPENSE"
  | .PAYMENT => if trimStr bank ≠ "" then trimStr bank else "SUSPENSE"

/-- Output row, the fixed eight columns of line 206. -/
structure OutRow where
  date : String
  voucherNo : String
  by_dr : String
  to_cr : String
  amount : ℚ
  narration : String
  voucherType : VoucherType
  day : String
deriving DecidableEq, Repr

/-- Lines 136-204: assemble one output row from one working row. -/
def processRow (ov : List (String × String)) (ledgers : List String)
    (scorer : String → String → ℚ) (thresh : ℚ) (bank : String)
    (parse : String → Option CalDate) (t : Txn) : OutRow :=
  let mapped := mappedLedger ov ledgers scorer thresh t.narration t.debit
  let vt := voucherType t.debit t.credit
  { date := to_date_str parse t.date
    voucherNo := ""
    by_dr := by_dr_of vt mapped bank
    to_cr := to_cr_of vt mapped bank
    amount := if t.debit > 0 then t.debit else t.credit
    narration := t.narration
    voucherType := vt
    day := dayVal parse t.date }

/-- The whole mapping pass of lines 106-206 over the row list. -/
def classify (ov : List (String × String)) (ledgers : List String)
    (scorer : String → String → ℚ) (thresh : ℚ) (bank : String)
    (parse : String → Option CalDate) (rows : List Txn) : List OutRow :=
  rows.map (processRow ov ledgers scorer thresh bank parse)

/-- Line 69's narration key: `str.strip().str.upper()`. -/
def narrKey (s : String) : String := upperStr (trimStr s)

/-- Lines 69-70: the narration keys occurring more than once in the
batch, the only keys the override map may ever contain. -/
def repeatedNarrations (rows : List Txn) : List String :=
  ((rows.map (fun t => narrKey t.narration)).dedup).filter
    (fun k => decide (1 < (rows.filter (fun t => narrKey t.narration == k)).length))

/-- Line 54: the four required input columns. -/
def requiredCols : List String := ["DATE", "NARRITION", "DEBIT", "CREDIT"]

/-- Line 51: column names are trimmed and uppercased before the check. -/
def normalizeCols (cols : List String) : List String :=
  cols.map (fun c => upperStr (trimStr c))

/-- Lines 55-58: the loop reports the first required column that is not
among the normalized column names. -/
def findMissing (cols : List String) : Option String :=
  requiredCols.find? (fun r => !((normalizeCols cols).contains r))

/-- Outcome of a batch run: either the structural precondition failure of
lines 56-58 (carrying the missing column and the columns actually found)
or the classified output rows. -/
inductive RunResult where
  | colError (missing : String) (found : List String)
  | ok (rows : List OutRow)
deriving DecidableEq, Repr

/-- Lines 50-58 followed by lines 106-206: check the required columns,
and only if all are present run the classification pass. -/
def runBatch (cols : List String) (rows : List Txn)
    (ov : List (String × String)) (ledgers : List String)
    (scorer : String → String → ℚ) (thresh : ℚ) (bank : String)
    (parse : String → Option CalDate) : RunResult :=
  match findMissing cols with
  | some r => .colError r (normalizeCols cols)
  | none => .ok (classify ov ledgers scorer thresh bank parse rows)

/-- Split a character list on spaces (structural, for concrete
evaluation of the modelled similarity scorer). -/
def splitSp (l : List Char) : List (List Char) :=
  l.foldr
    (fun c acc =>
      if c = ' ' then [] :: acc
      else
        match acc with
        | [] => [[c]]
        | w :: rest => (c :: w) :: rest)
    [[]]

/-- The distinct uppercased space-separated tokens of a string. -/
def tokensOf (s : String) : List String :=
  (((splitSp (upperStr s).data).filter (fun w => w ≠ [])).map
    (fun w => (⟨w⟩ : String))).dedup

/-- Modelled from the spec: the token-set similarity scorer
(`fuzz.token_set_ratio` of the external rapidfuzz library, not part of
this repository's sources).  Per the spec's design note it is a
Jaccard-like token overlap over normalized space-separated tokens,
tolerant of word reordering and of one token set being a subset of the
other (which rapidfuzz scores as 100). -/
def tokenSetSim (a b : String) : ℚ :=
  let ta := tokensOf a
  let tb := tokensOf b
  if ta = [] ∨ tb = [] then 0
  else if ta.all (fun t => t ∈ tb) ∨ tb.all (fun t => t ∈ ta) then 100
  else
    let inter := (ta.filter (fun t => t ∈ tb)).length
    (100 * inter : ℚ) / ((ta.length + tb.length - inter : Nat) : ℚ)

/-- A parse function that always fails, for concrete instances where the
date column is irrelevant. -/
def noParse : String → Option CalDate := fun _ => none

/-- A concrete parse function recognising the scenario date. -/
def parseFeb : String → Option CalDate :=
  fun s => if s = "2024-02-10" then some ⟨10, 2, 2024⟩ else none

/-- The scenario row of the spec's testable-properties section. -/
def salaryRow : Txn := ⟨"2024-02-10", "SALARY CREDIT", 0, 50000⟩

/-! ### Helper lemmas on the string model -/

theorem wsChar_upChar (c : Char) : wsChar (upChar c) = wsChar c := by
  unfold upChar
  by_cases h : 'a' ≤ c ∧ c ≤ 'z'
  · rw [if_pos h]
    obtain ⟨h1, h2⟩ := h
    rw [Char.le_def] at h1 h2
    have hn1 : 97 ≤ c.toNat := h1
    have hn2 : c.toNat ≤ 122 := h2
    have hofn : (Char.ofNat (c.toNat - 32)).toNat = c.toNat - 32 := by
      unfold Char.ofNat
      rw [dif_pos (Or.inl (by omega : c.toNat - 32 < 0xd800))]
      rfl
    have hL : wsChar (Char.ofNat (c.toNat - 32)) = false := by
      simp only [wsChar, Bool.or_eq_false_iff, decide_eq_false_iff_not, hofn]
      omega
    have hR : wsChar c = false := by
      simp only [wsChar, Bool.or_eq_false_iff, decide_eq_false_iff_not]
      omega
    rw [hL, hR]
  · rw [if_neg h]

theorem dropWhile_wsChar_map_upChar (l : List Char) :
    (l.map upChar).dropWhile wsChar = (l.dropWhile wsChar).map upChar := by
  have hp : (wsChar ∘ upChar) = wsChar := funext wsChar_upChar
  rw [List.dropWhile_map, hp]

theorem trimChars_map_upChar (l : List Char) :
    trimChars (l.map upChar) = (trimChars l).map upChar := by
  unfold trimChars
  rw [dropWhile_wsChar_map_upChar, ← List.map_reverse, dropWhile_wsChar_map_upChar,
    ← List.map_reverse]

theorem trimStr_upperStr (s : String) :
    trimStr (upperStr s) = upperStr (trimStr s) :=
  congrArg String.mk (trimChars_map_upChar s.data)

theorem head?_dropWhile_wsChar (l : List Char) (c : Char)
    (h : (l.dropWhile wsChar).head? = some c) : wsChar c = false := by
  induction l with
  | nil => simp at h
  | cons a r ih =>
      rw [List.dropWhile_cons] at h
      by_cases ha : wsChar a = true
      · exact ih (by rwa [if_pos ha] at h)
      · rw [if_neg ha] at h
        simp only [List.head?_cons, Option.some.injEq] at h
        subst h
        simpa using ha

theorem getLast?_dropWhile_wsChar (l : List Char)
    (h : l.dropWhile wsChar ≠ []) :
    (l.dropWhile wsChar).getLast? = l.getLast? := by
  induction l with
  | nil => simp at h
  | cons a r ih =>
      rw [List.dropWhile_cons]
      by_cases ha : wsChar a = true
      · rw [if_pos ha]
        rw [List.dropWhile_cons, if_pos ha] at h
        have hr : r ≠ [] := by
          intro hr
          exact h (by simp [hr])
        obtain ⟨b, r2, rfl⟩ := List.exists_cons_of_ne_nil hr
        rw [List.getLast?_cons_cons]
        exact ih h
      · rw [if_neg ha]

theorem dropWhile_eq_self_of_head (l : List Char)
    (h : ∀ c, l.head? = some c → wsChar c = false) :
    l.dropWhile wsChar = l := by
  cases l with
  | nil => rfl
  | cons a r =>
      rw [List.dropWhile_cons, if_neg]
      simp [h a rfl]

theorem trimChars_head (l : List Char) (c : Char)
    (h : (trimChars l).head? = some c) : wsChar c = false := by
  unfold trimChars at h
  rw [List.head?_reverse] at h
  have hne : ((l.dropWhile wsChar).reverse.dropWhile wsChar) ≠ [] := by
    intro he
    rw [he] at h
    simp at h
  rw [getLast?_dropWhile_wsChar _ hne, List.getLast?_reverse] at h
  exact head?_dropWhile_wsChar _ _ h

theorem trimChars_getLast (l : List Char) (c : Char)
    (h : (trimChars l).getLast? = some c) : wsChar c = false := by
  unfold trimChars at h
  rw [List.getLast?_reverse] at h
  exact head?_dropWhile_wsChar _ _ h

theorem trimChars_idem (l : List Char) : trimChars (trimChars l) = trimChars l := by
  have h1 : (trimChars l).dropWhile wsChar = trimChars l :=
    dropWhile_eq_self_of_head _ (trimChars_head l)
  have h2 : (trimChars l).reverse.dropWhile wsChar = (trimChars l).reverse := by
    apply dropWhile_eq_self_of_head
    intro c hc
    rw [List.head?_reverse] at hc
    exact trimChars_getLast l c hc
  show ((((trimChars l).dropWhile wsChar).reverse.dropWhile wsChar)).reverse = trimChars l
  rw [h1, h2, List.reverse_reverse]

theorem trimStr_idem (s : String) : trimStr (trimStr s) = trimStr s :=
  congrArg String.mk (trimChars_idem s.data)

theorem foldl_override_nomatch (narr : String) (ov : List (String × String))
    (acc : String) (h : ∀ kv ∈ ov, upperStr narr ≠ kv.1) :
    ov.foldl (fun acc kv => if upperStr narr = kv.1 then kv.2 else acc) acc = acc := by
  induction ov generalizing acc with
  | nil => rfl
  | cons p r ih =>
      rw [List.foldl_cons, if_neg (h p (by simp))]
      exact ih acc (fun kv hkv => h kv (by simp [hkv]))

theorem foldl_override_match (narr : String) (ov : List (String × String))
    (acc : String) (hm : ∃ kv ∈ ov, kv.1 = upperStr narr)
    (hv : ∀ kv ∈ ov, kv.2 ≠ "") :
    ov.foldl (fun acc kv => if upperStr narr = kv.1 then kv.2 else acc) acc ≠ "" := by
  induction ov generalizing acc with
  | nil => simp at hm
  | cons p r ih =>
      rw [List.foldl_cons]
      by_cases hr : ∃ kv ∈ r, kv.1 = upperStr narr
      · exact ih _ hr (fun kv hkv => hv kv (by simp [hkv]))
      · obtain ⟨kv, hkv, hkeq⟩ := hm
        rcases List.mem_cons.mp hkv with rfl | hkvr
        · rw [if_pos hkeq.symm]
          rw [foldl_override_nomatch]
          · exact hv kv (by simp)
          · intro kv2 hkv2 heq
            exact hr ⟨kv2, hkv2, heq.symm⟩
        · exact absurd ⟨kv, hkvr, hkeq⟩ hr

theorem extractOne_foldl (scorer : String → String → ℚ) (text : String)
    (l : List String) :
    ∀ (acc : Option (String × ℚ)) (n : String) (s : ℚ),
      l.foldl (extractStep scorer text) acc = some (n, s) →
      acc = some (n, s) ∨ (n ∈ l ∧ s = scorer text n) := by
  induction l with
  | nil =>
      intro acc n s h
      exact Or.inl h
  | cons a r ih =>
      intro acc n s h
      rw [List.foldl_cons] at h
      rcases ih (extractStep scorer text acc a) n s h with h1 | h2
      · cases acc with
        | none =>
            simp only [extractStep, Option.some.injEq, Prod.mk.injEq] at h1
            obtain ⟨hn, hs⟩ := h1
            subst hn
            subst hs
            exact Or.inr ⟨List.mem_cons_self a r, rfl⟩
        | some p =>
            obtain ⟨bn, bs⟩ := p
            simp only [extractStep] at h1
            by_cases hlt : bs < scorer text a
            · rw [if_pos hlt] at h1
              simp only [Option.some.injEq, Prod.mk.injEq] at h1
              obtain ⟨hn, hs⟩ := h1
              subst hn
              subst hs
              exact Or.inr ⟨List.mem_cons_self a r, rfl⟩
            · rw [if_neg hlt] at h1
              exact Or.inl h1
      · exact Or.inr ⟨List.mem_cons_of_mem _ h2.1, h2.2⟩

theorem extractOne_spec (scorer : String → String → ℚ) (text : String)
    (l : List String) (n : String) (s : ℚ)
    (h : extractOne scorer text l = some (n, s)) :
    n ∈ l ∧ s = scorer text n := by
  rcases extractOne_foldl scorer text l none n s h with h1 | h2
  · simp at h1
  · exact h2

theorem pad2_length (n : Nat) (h : n < 32) : (pad2 n).length = 2 := by
  revert h
  revert n
  decide

/-! ### Pipeline helper lemmas -/

theorem mappedLedger_small (ov : List (String × String)) (ledgers : List String)
    (scorer : String → String → ℚ) (thresh : ℚ) (narr : String) (debit : ℚ)
    (h : debit ≤ 58) :
    mappedLedger ov ledgers scorer thresh narr debit = "BANK CHARGES" := by
  unfold mappedLedger step2
  rw [if_pos h]
  unfold step3
  by_cases hl : ledgers = []
  · rw [if_pos hl]
  · rw [if_neg hl, if_pos (by decide : ("BANK CHARGES" : String) ≠ "")]

theorem step3_ne_imp (scorer : String → String → ℚ) (ledgers : List String)
    (thresh : ℚ) (narr mapped : String)
    (h : step3 scorer ledgers thresh narr mapped ≠ mapped) :
    mapped = "" ∧ trimStr narr ≠ "" ∧
    ∃ n s, extractOne scorer narr ledgers = some (n, s) ∧ thresh ≤ s ∧
      step3 scorer ledgers thresh narr mapped = n := by
  by_cases hl : ledgers = []
  · exact absurd (by unfold step3; rw [if_pos hl]) h
  by_cases hm : mapped = ""
  case neg => exact absurd (by unfold step3; rw [if_neg hl, if_pos hm]) h
  subst hm
  by_cases ht : trimStr narr = ""
  · exact absurd (by unfold step3; rw [if_neg hl, if_neg (by simp), if_pos ht]) h
  cases hex : extractOne scorer narr ledgers with
  | none =>
      exact absurd (by unfold step3; rw [if_neg hl, if_neg (by simp), if_neg ht, hex]) h
  | some p =>
      obtain ⟨n, s⟩ := p
      have hval : step3 scorer ledgers thresh narr "" = (if thresh ≤ s then n else "") := by
        unfold step3
        rw [if_neg hl, if_neg (by simp), if_neg ht, hex]
      by_cases hs : thresh ≤ s
      · rw [if_pos hs] at hval
        exact ⟨rfl, ht, n, s, hex ▸ rfl, hs, hval⟩
      · rw [if_neg hs] at hval
        exact absurd hval h

/-! ### Claim theorems -/

/-- Claim C1 (counterexample): for the spec's scenario row (narration
`SALARY CREDIT`, debit 0, credit 50000, ledgers `SALARY`/`RENT`,
threshold 80) the token-set similarity to `SALARY` is at least 80, yet
`to_cr` is `BANK CHARGES`, not `SALARY` (nor could it be `SUSPENSE`): a
zero-debit row satisfies `debit <= 58`, so the small-charge rule claims
it before fuzzy matching is ever consulted. -/
theorem c1_counterexample :
    tokenSetSim "SALARY CREDIT" "SALARY" ≥ 80 ∧
    (processRow [] ["SALARY", "RENT"] tokenSetSim 80 "" noParse salaryRow).voucherType
      = VoucherType.RECEIPT ∧
    (processRow [] ["SALARY", "RENT"] tokenSetSim 80 "" noParse salaryRow).to_cr
      = "BANK CHARGES" ∧
    (processRow [] ["SALARY", "RENT"] tokenSetSim 80 "" noParse salaryRow).to_cr
      ≠ "SALARY" :=
  ⟨by decide, by decide, by decide, by decide⟩

/-- Claim C1 (amended): the scenario row is classified RECEIPT, but its
`mapped_ledger` (hence `to_cr`) is `BANK CHARGES` for every scorer,
because debit 0 falls under the `debit <= 58` rule; in general every row
with debit at most 58 gets `BANK CHARGES`, and approximate matching can
only affect a row when its debit exceeds 58 and no override matched. -/
theorem c1_amended :
    (∀ (ov : List (String × String)) (ledgers : List String)
        (scorer : String → String → ℚ) (thresh : ℚ) (narr : String) (debit : ℚ),
        debit ≤ 58 → mappedLedger ov ledgers scorer thresh narr debit = "BANK CHARGES") ∧
    (∀ (scorer : String → String → ℚ) (parse : String → Option CalDate),
        (processRow [] ["SALARY", "RENT"] scorer 80 "" parse salaryRow).voucherType
          = VoucherType.RECEIPT ∧
        (processRow [] ["SALARY", "RENT"] scorer 80 "" parse salaryRow).to_cr
          = "BANK CHARGES") ∧
    (∀ (ov : List (String × String)) (ledgers : List String)
        (scorer : String → String → ℚ) (thresh : ℚ) (narr : String) (debit : ℚ),
        mappedLedger ov ledgers scorer thresh narr debit ≠ step2 debit (step1 ov narr) →
        58 < debit ∧ step1 ov narr = "") := by
  refine ⟨fun ov ledgers scorer thresh narr debit h =>
    mappedLedger_small ov ledgers scorer thresh narr debit h,
    fun scorer parse => ⟨rfl, rfl⟩,
    fun ov ledgers scorer thresh narr debit hne => ?_⟩
  obtain ⟨hm, -, -⟩ := step3_ne_imp scorer ledgers thresh narr _ hne
  unfold step2 at hm
  by_cases hd : debit ≤ 58
  · rw [if_pos hd] at hm
    exact absurd hm (by decide)
  · rw [if_neg hd] at hm
    exact ⟨not_le.mp hd, hm⟩

/-- Claim C1 (witness): the amended claim applies at concrete inputs — a
zero-debit row maps to `BANK CHARGES`, and a row actually changed by
fuzzy matching has debit above 58 and no override. -/
theorem c1_amended_witness :
    mappedLedger [] [] (fun _ _ => 0) 0 "X" 0 = "BANK CHARGES" ∧
    (58 < (100 : ℚ) ∧ step1 [] "B" = "") :=
  ⟨c1_amended.1 [] [] (fun _ _ => 0) 0 "X" 0 (by norm_num),
   c1_amended.2.2 [] ["A"] (fun _ _ => 100) 0 "B" 100 (by decide)⟩

/-- Claim C2 (counterexample): with an empty bank label, a RECEIPT row's
`by_dr` is the empty string and a PAYMENT row's `to_cr` is `SUSPENSE` —
neither is the fallback label `BANK` the claim requires. -/
theorem c2_counterexample :
    (processRow [] [] tokenSetSim 80 "" noParse ⟨"", "N1", 0, 100⟩).voucherType
      = VoucherType.RECEIPT ∧
    (processRow [] [] tokenSetSim 80 "" noParse ⟨"", "N1", 0, 100⟩).by_dr ≠ "BANK" ∧
    (processRow [] [] tokenSetSim 80 "" noParse ⟨"", "N2", 100, 0⟩).voucherType
      = VoucherType.PAYMENT ∧
    (processRow [] [] tokenSetSim 80 "" noParse ⟨"", "N2", 100, 0⟩).to_cr ≠ "BANK" :=
  ⟨by decide, by decide, by decide, by decide⟩

/-- Claim C2 (amended): when the bank label is absent or blank, the bank
side of the double entry is never `BANK`: a RECEIPT row's `by_dr` is left
empty, and a PAYMENT row's `to_cr` is `SUSPENSE`. -/
theorem c2_amended (ov : List (String × String)) (ledgers : List String)
    (scorer : String → String → ℚ) (thresh : ℚ) (bank : String)
    (parse : String → Option CalDate) (t : Txn)
    (hb : trimStr bank = "") :
    ((processRow ov ledgers scorer thresh bank parse t).voucherType = VoucherType.RECEIPT →
      (processRow ov ledgers scorer thresh bank parse t).by_dr = "") ∧
    ((processRow ov ledgers scorer thresh bank parse t).voucherType = VoucherType.PAYMENT →
      (processRow ov ledgers scorer thresh bank parse t).to_cr = "SUSPENSE") := by
  constructor
  · intro h
    have hv : voucherType t.debit t.credit = VoucherType.RECEIPT := h
    show by_dr_of (voucherType t.debit t.credit)
      (mappedLedger ov ledgers scorer thresh t.narration t.debit) bank = ""
    rw [hv]
    show (if trimStr bank ≠ "" then trimStr bank else "") = ""
    rw [if_neg (by simp [hb])]
  · intro h
    have hv : voucherType t.debit t.credit = VoucherType.PAYMENT := h
    show to_cr_of (voucherType t.debit t.credit)
      (mappedLedger ov ledgers scorer thresh t.narration t.debit) bank = "SUSPENSE"
    rw [hv]
    show (if trimStr bank ≠ "" then trimStr bank else "SUSPENSE") = "SUSPENSE"
    rw [if_neg (by simp [hb])]

/-- Claim C2 (witness): the amended claim at concrete rows — empty bank
label yields empty `by_dr` on a RECEIPT and `SUSPENSE` `to_cr` on a
PAYMENT. -/
theorem c2_amended_witness :
    (processRow [] [] tokenSetSim 80 "" noParse ⟨"", "R", 0, 100⟩).by_dr = "" ∧
    (processRow [] [] tokenSetSim 80 "" noParse ⟨"", "P", 100, 0⟩).to_cr = "SUSPENSE" :=
  ⟨(c2_amended [] [] tokenSetSim 80 "" noParse ⟨"", "R", 0, 100⟩ (by decide)).1 (by decide),
   (c2_amended [] [] tokenSetSim 80 "" noParse ⟨"", "P", 100, 0⟩ (by decide)).2 (by decide)⟩

/-- Claim C3: every row with debit at most 58 has `BANK CHARGES` as its
mapped ledger, even when an override entry exists for its narration: the
small-charge rule of step 2 overwrites whatever step 1 set, and step 3
never touches a nonempty mapped ledger. -/
theorem c3_small_debit_forces_bank_charges (ov : List (String × String))
    (ledgers : List String) (scorer : String → String → ℚ) (thresh : ℚ)
    (narr : String) (debit : ℚ) (h : debit ≤ 58) :
    mappedLedger ov ledgers scorer thresh narr debit = "BANK CHARGES" :=
  mappedLedger_small ov ledgers scorer thresh narr debit h

/-- Claim C3 (witness): a debit-50 row whose narration has an override
(which alone would map it to `OVR`) still ends as `BANK CHARGES`. -/
theorem c3_witness :
    step1 [("X", "OVR")] "x" = "OVR" ∧
    mappedLedger [("X", "OVR")] ["Y"] (fun _ _ => 100) 0 "x" 50 = "BANK CHARGES" :=
  ⟨by decide,
   c3_small_debit_forces_bank_charges [("X", "OVR")] ["Y"] (fun _ _ => 100) 0 "x" 50
     (by norm_num)⟩

/-- Claim C4: every row gets exactly one voucher type, a deterministic
function of (debit, credit) agreeing with the spec's case analysis:
PAYMENT when debit positive and credit zero, RECEIPT when credit
positive and debit zero, otherwise the `debit >= credit` tie-break — in
particular an all-zero row is classified PAYMENT, not rejected. -/
theorem c4_voucher_type_deterministic :
    (∀ d c : ℚ, voucherType d c = voucherTypeSpec d c) ∧
    voucherType 0 0 = VoucherType.PAYMENT ∧
    (∀ d c : ℚ, voucherType d c = VoucherType.PAYMENT ∨
      voucherType d c = VoucherType.RECEIPT) ∧
    (∀ (ov : List (String × String)) (ledgers : List String)
        (scorer : String → String → ℚ) (thresh : ℚ) (bank : String)
        (parse : String → Option CalDate) (t : Txn),
        (processRow ov ledgers scorer thresh bank parse t).voucherType
          = voucherType t.debit t.credit) := by
  refine ⟨fun d c => rfl, by decide, fun d c => ?_, fun _ _ _ _ _ _ _ => rfl⟩
  rcases hv : voucherType d c with - | -
  · exact Or.inl rfl
  · exact Or.inr rfl

/-- Claim C5: approximate matching never assigns a ledger scoring below
the threshold, and it is monotone: whenever the step-3 assignment fires
at threshold `t2`, the assigned name is a ledger whose score reaches
`t2`, and any lower threshold `t1` resolves the same row to the same
name — so raising the threshold only shrinks the resolved set. -/
theorem c5_threshold_sound_and_monotone (scorer : String → String → ℚ)
    (ledgers : List String) (t1 t2 : ℚ) (narr mapped : String)
    (h12 : t1 ≤ t2) (hne : step3 scorer ledgers t2 narr mapped ≠ mapped) :
    step3 scorer ledgers t2 narr mapped ∈ ledgers ∧
    t2 ≤ scorer narr (step3 scorer ledgers t2 narr mapped) ∧
    step3 scorer ledgers t1 narr mapped = step3 scorer ledgers t2 narr mapped := by
  obtain ⟨hm, ht, n, s, hex, hs, heq⟩ := step3_ne_imp scorer ledgers t2 narr mapped hne
  obtain ⟨hmem, hsc⟩ := extractOne_spec scorer narr ledgers n s hex
  have hl : ledgers ≠ [] := by
    intro he
    rw [he] at hmem
    simp at hmem
  have h1 : step3 scorer ledgers t1 narr mapped = n := by
    have hval : step3 scorer ledgers t1 narr mapped = (if t1 ≤ s then n else mapped) := by
      unfold step3
      rw [if_neg hl, if_neg (by simp [hm]), if_neg ht, hex]
    rw [hval, if_pos (le_trans h12 hs)]
  rw [heq]
  exact ⟨hmem, by rw [← hsc]; exact hs, by rw [h1]⟩

/-- Claim C5 (witness): with ledger list `SALARY`, narration `SALARY
CREDIT` and thresholds 70 ≤ 80, the row resolved at 80 is resolved to
the same ledger at 70, and its score reaches 80. -/
theorem c5_witness :
    step3 tokenSetSim ["SALARY"] 80 "SALARY CREDIT" "" ∈ ["SALARY"] ∧
    (80 : ℚ) ≤ tokenSetSim "SALARY CREDIT" (step3 tokenSetSim ["SALARY"] 80 "SALARY CREDIT" "") ∧
    step3 tokenSetSim ["SALARY"] 70 "SALARY CREDIT" "" =
      step3 tokenSetSim ["SALARY"] 80 "SALARY CREDIT" "" :=
  c5_threshold_sound_and_monotone tokenSetSim ["SALARY"] 70 80 "SALARY CREDIT" ""
    (by norm_num) (by decide)

/-- Claim C7: the output amount is the debit when the debit is positive
and the credit otherwise; in particular an all-zero row reports 0. -/
theorem c7_amount_is_nonzero_side :
    (∀ (ov : List (String × String)) (ledgers : List String)
        (scorer : String → String → ℚ) (thresh : ℚ) (bank : String)
        (parse : String → Option CalDate) (t : Txn),
        (processRow ov ledgers scorer thresh bank parse t).amount =
          if t.debit > 0 then t.debit else t.credit) ∧
    (∀ (ov : List (String × String)) (ledgers : List String)
        (scorer : String → String → ℚ) (thresh : ℚ) (bank : String)
        (parse : String → Option CalDate),
        (processRow ov ledgers scorer thresh bank parse ⟨"", "", 0, 0⟩).amount = 0) :=
  ⟨fun _ _ _ _ _ _ _ => rfl, fun _ _ _ _ _ _ => rfl⟩

/-- Claim C6: a narration whose trimmed, uppercased text occurs exactly
once in the batch never receives an override-derived mapped ledger,
because the override map only carries keys of repeated narrations; and
an override entry does apply to every row whose uppercased narration
equals its key (override values are nonempty by construction,
line 80-81). -/
theorem c6_singleton_never_overridden :
    (∀ (rows : List Txn) (ov : List (String × String)) (t : Txn),
        t ∈ rows →
        (∀ k v, (k, v) ∈ ov → k ∈ repeatedNarrations rows) →
        (rows.filter (fun r => narrKey r.narration == narrKey t.narration)).length = 1 →
        step1 ov t.narration = "") ∧
    (∀ (ov : List (String × String)) (narr : String),
        (∀ kv ∈ ov, kv.2 ≠ "") →
        (∃ kv ∈ ov, kv.1 = upperStr narr) →
        step1 ov narr ≠ "") := by
  constructor
  · intro rows ov t htmem hkeys hcount
    apply foldl_override_nomatch
    intro kv hkv heq
    have hkrep : kv.1 ∈ repeatedNarrations rows := hkeys kv.1 kv.2 hkv
    unfold repeatedNarrations at hkrep
    rw [List.mem_filter] at hkrep
    obtain ⟨hmem, hgt⟩ := hkrep
    rw [List.mem_dedup, List.mem_map] at hmem
    obtain ⟨x, hx, hxk⟩ := hmem
    have hgt' : 1 < (rows.filter (fun r => narrKey r.narration == kv.1)).length :=
      of_decide_eq_true hgt
    have hkey : narrKey t.narration = kv.1 := by
      have h1 : trimStr (upperStr t.narration) = trimStr kv.1 := by rw [heq]
      rw [trimStr_upperStr] at h1
      have h2 : trimStr kv.1 = kv.1 := by
        rw [← hxk]
        show trimStr (upperStr (trimStr x.narration)) = upperStr (trimStr x.narration)
        rw [trimStr_upperStr, trimStr_idem]
      rw [h2] at h1
      exact h1
    rw [hkey] at hcount
    rw [hcount] at hgt'
    exact absurd hgt' (lt_irrefl 1)
  · intro ov narr hv hm
    exact foldl_override_match narr ov "" hm hv

/-- Claim C6 (witness): in a batch where `B` repeats and `A` is a
singleton, an override keyed `B` leaves the `A` row untouched; and an
override entry keyed `A` does fire on a row whose narration uppercases
to `A`. -/
theorem c6_witness :
    step1 [("B", "LEDG")] "A" = "" ∧ step1 [("A", "L")] "a" ≠ "" := by
  constructor
  · exact c6_singleton_never_overridden.1
      [⟨"", "B", 0, 0⟩, ⟨"", "B", 0, 0⟩, ⟨"", "A", 0, 0⟩] [("B", "LEDG")]
      ⟨"", "A", 0, 0⟩ (by decide)
      (by
        intro k v hkv
        simp only [List.mem_singleton, Prod.mk.injEq] at hkv
        rw [hkv.1]
        decide)
      (by decide)
  · exact c6_singleton_never_overridden.2 [("A", "L")] "a" (by decide)
      ⟨("A", "L"), by decide, by decide⟩

/-- Claim C8: date derivation is total and never aborts the batch: on
parse failure both the output date and `DAY` are empty; on success the
date is rendered `DD-MM-YYYY`, `DAY` is the zero-padded day of month and
equals the first two characters of the rendered date (the rendered date
starts with the two-character day field); the per-row output fields come
from exactly these functions. -/
theorem c8_date_derivation (parse : String → Option CalDate) (val : String) :
    (parse val = none → to_date_str parse val = "" ∧ dayVal parse val = "") ∧
    (∀ d, parse val = some d → okDate d = true →
      to_date_str parse val = pad2 d.day ++ "-" ++ pad2 d.month ++ "-" ++ pad4 d.year ∧
      dayVal parse val = pad2 d.day ∧
      (dayVal parse val).length = 2 ∧
      ∃ rest, to_date_str parse val = dayVal parse val ++ rest) ∧
    (∀ (ov : List (String × String)) (ledgers : List String)
        (scorer : String → String → ℚ) (thresh : ℚ) (bank : String) (t : Txn),
        (processRow ov ledgers scorer thresh bank parse t).date = to_date_str parse t.date ∧
        (processRow ov ledgers scorer thresh bank parse t).day = dayVal parse t.date) := by
  refine ⟨?_, ?_, fun _ _ _ _ _ _ => ⟨rfl, rfl⟩⟩
  · intro h
    unfold to_date_str dayVal
    rw [h]
    exact ⟨rfl, rfl⟩
  · intro d hd hok
    have h1 : to_date_str parse val = pad2 d.day ++ "-" ++ pad2 d.month ++ "-" ++ pad4 d.year := by
      unfold to_date_str
      rw [hd]
    have h2 : dayVal parse val = pad2 d.day := by
      unfold dayVal
      rw [hd]
      show (if okDate d then pad2 d.day else "") = pad2 d.day
      rw [if_pos hok]
    have hday : d.day < 32 := by
      unfold okDate at hok
      simp only [Bool.and_eq_true, decide_eq_true_eq] at hok
      omega
    refine ⟨h1, h2, ?_, "-" ++ pad2 d.month ++ "-" ++ pad4 d.year, ?_⟩
    · rw [h2]
      exact pad2_length d.day hday
    · rw [h1, h2]
      simp only [String.append_assoc]

/-- Claim C8 (witness): a failing parse yields empty date and day; the
scenario date renders as `10-02-2024` with day `10`, the first two
characters. -/
theorem c8_witness :
    (to_date_str parseFeb "nope" = "" ∧ dayVal parseFeb "nope" = "") ∧
    (to_date_str parseFeb "2024-02-10" = pad2 10 ++ "-" ++ pad2 2 ++ "-" ++ pad4 2024 ∧
     dayVal parseFeb "2024-02-10" = pad2 10 ∧
     (dayVal parseFeb "2024-02-10").length = 2 ∧
     ∃ rest, to_date_str parseFeb "2024-02-10" = dayVal parseFeb "2024-02-10" ++ rest) :=
  ⟨(c8_date_derivation parseFeb "nope").1 rfl,
   (c8_date_derivation parseFeb "2024-02-10").2.1 ⟨10, 2, 2024⟩ rfl (by decide)⟩

/-- Claim C9: when one of the four required columns is missing after
trim-and-uppercase normalization, the run reports a column error naming
the columns actually found and produces no output rows; when all four
are present the classification pass runs. -/
theorem c9_required_columns (cols : List String) (rows : List Txn)
    (ov : List (String × String)) (ledgers : List String)
    (scorer : String → String → ℚ) (thresh : ℚ) (bank : String)
    (parse : String → Option CalDate) :
    ((∃ r, r ∈ requiredCols ∧ r ∉ normalizeCols cols) →
      ∃ r, r ∈ requiredCols ∧ r ∉ normalizeCols cols ∧
        runBatch cols rows ov ledgers scorer thresh bank parse =
          RunResult.colError r (normalizeCols cols)) ∧
    ((∀ r ∈ requiredCols, r ∈ normalizeCols cols) →
      runBatch cols rows ov ledgers scorer thresh bank parse =
        RunResult.ok (classify ov ledgers scorer thresh bank parse rows)) := by
  constructor
  · intro hex
    cases hfm : findMissing cols with
    | none =>
        exfalso
        obtain ⟨r, hr, hnot⟩ := hex
        unfold findMissing at hfm
        rw [List.find?_eq_none] at hfm
        have hc := hfm r hr
        simp only [Bool.not_eq_true', Bool.not_eq_false] at hc
        exact hnot (by simpa using hc)
    | some r =>
        have hmem := List.mem_of_find?_eq_some hfm
        have hp := List.find?_some hfm
        simp only [Bool.not_eq_true'] at hp
        refine ⟨r, hmem, ?_, ?_⟩
        · intro hmem2
          have : (normalizeCols cols).contains r = true := by simpa using hmem2
          rw [this] at hp
          exact Bool.noConfusion hp
        · unfold runBatch
          rw [hfm]
  · intro hall
    cases hfm : findMissing cols with
    | some r =>
        exfalso
        have hp := List.find?_some hfm
        have hmem := List.mem_of_find?_eq_some hfm
        simp only [Bool.not_eq_true'] at hp
        have : (normalizeCols cols).contains r = true := by simpa using hall r hmem
        rw [this] at hp
        exact Bool.noConfusion hp
    | none =>
        unfold runBatch
        rw [hfm]

/-- Claim C9 (witness): with only `DATE` and `DEBIT` supplied the run
fails naming a missing column; with all four supplied (lower case and
padded, exercising the normalization) it runs the classifier. -/
theorem c9_witness :
    (∃ r, r ∈ requiredCols ∧ r ∉ normalizeCols ["DATE", "DEBIT"] ∧
      runBatch ["DATE", "DEBIT"] [] [] [] tokenSetSim 80 "" noParse =
        RunResult.colError r (normalizeCols ["DATE", "DEBIT"])) ∧
    runBatch ["  date ", "NARRITION", "debit", "CREDIT"] [] [] [] tokenSetSim 80 "" noParse =
      RunResult.ok (classify [] [] tokenSetSim 80 "" noParse []) :=
  ⟨(c9_required_columns ["DATE", "DEBIT"] [] [] [] tokenSetSim 80 "" noParse).1
      ⟨"NARRITION", by decide, by decide⟩,
   (c9_required_columns ["  date ", "NARRITION", "debit", "CREDIT"] [] [] []
      tokenSetSim 80 "" noParse).2 (by decide)⟩

/-- Claim C10: a row with an empty or whitespace-only narration is
skipped by fuzzy matching, so with debit above 58 and no override its
mapped ledger stays unset and the non-bank side of the entry surfaces as
`SUSPENSE` — for every scorer, even one that would score any ledger at
or above the threshold. -/
theorem c10_blank_narration_skips_fuzzy (ov : List (String × String))
    (ledgers : List String) (scorer : String → String → ℚ) (thresh : ℚ)
    (bank : String) (parse : String → Option CalDate) (t : Txn)
    (hblank : trimStr t.narration = "") (hdebit : 58 < t.debit)
    (hov : step1 ov t.narration = "") :
    mappedLedger ov ledgers scorer thresh t.narration t.debit = "" ∧
    ((processRow ov ledgers scorer thresh bank parse t).voucherType = VoucherType.RECEIPT →
      (processRow ov ledgers scorer thresh bank parse t).to_cr = "SUSPENSE") ∧
    ((processRow ov ledgers scorer thresh bank parse t).voucherType = VoucherType.PAYMENT →
      (processRow ov ledgers scorer thresh bank parse t).by_dr = "SUSPENSE") := by
  have hm : mappedLedger ov ledgers scorer thresh t.narration t.debit = "" := by
    unfold mappedLedger step2
    rw [hov, if_neg (not_le.mpr hdebit)]
    unfold step3
    by_cases hl : ledgers = []
    · rw [if_pos hl]
    · rw [if_neg hl, if_neg (by simp), if_pos hblank]
  refine ⟨hm, ?_, ?_⟩
  · intro h
    have hv : voucherType t.debit t.credit = VoucherType.RECEIPT := h
    show to_cr_of (voucherType t.debit t.credit)
      (mappedLedger ov ledgers scorer thresh t.narration t.debit) bank = "SUSPENSE"
    rw [hv, hm]
    show (if ("" : String) ≠ "" then "" else "SUSPENSE") = "SUSPENSE"
    rw [if_neg (by simp)]
  · intro h
    have hv : voucherType t.debit t.credit = VoucherType.PAYMENT := h
    show by_dr_of (voucherType t.debit t.credit)
      (mappedLedger ov ledgers scorer thresh t.narration t.debit) bank = "SUSPENSE"
    rw [hv, hm]
    show (if ("" : String) ≠ "" then "" else "SUSPENSE") = "SUSPENSE"
    rw [if_neg (by simp)]

/-- Claim C10 (witness): a whitespace-only narration with debit 100 and
a scorer that returns 100 for everything still ends unresolved, and the
PAYMENT row's `by_dr` is `SUSPENSE`. -/
theorem c10_witness :
    mappedLedger [] ["X"] (fun _ _ => 100) 80 "   " 100 = "" ∧
    (processRow [] ["X"] (fun _ _ => 100) 80 "" noParse ⟨"", "   ", 100, 0⟩).by_dr
      = "SUSPENSE" := by
  have h := c10_blank_narration_skips_fuzzy [] ["X"] (fun _ _ => 100) 80 "" noParse
    ⟨"", "   ", 100, 0⟩ (by decide) (by norm_num) (by decide)
  exact ⟨h.1, h.2.2 (by decide)⟩
